import Mathlib

/-!
Verification of the api-prime-bank backend (src/index.js) against its
natural-language specification.

The development shallowly embeds the Firestore-backed Express handlers as pure
Lean functions over an explicit database state:

* money amounts and balances are rationals (the source manipulates JS numbers
  produced by parseFloat on decimal inputs);
* a Firestore collection is an association list of (document id, document);
* a Firestore transaction is modelled by its observable effect: the handler
  either returns the unchanged database together with an error, or the
  database with all buffered writes applied in order (writes to the same
  document apply sequentially, the later write winning);
* a JS Date value is abstracted by its epoch milliseconds together with the
  calendar year and month the aggregation code reads from it; an unparseable
  or missing date is `none`.
-/

attribute [local semireducible] Rat.add Rat.sub Rat.mul Rat.inv

deriving instance DecidableEq for Except

namespace PrimeBank

/-- Leading-zero padding to two characters, as String(n).padStart(2, "0"). -/
def pad2 (n : Nat) : String :=
  if n < 10 then "0" ++ toString n else toString n

/-- The month-name table `monthNames` of the source (index 0 = January). -/
def monthNames : List String :=
  ["Jan", "Fev", "Mar", "Abr", "Mai", "Jun",
   "Jul", "Ago", "Set", "Out", "Nov", "Dez"]

/-- Abstraction of a valid JS `Date`: epoch milliseconds plus the calendar
fields `getFullYear()` and `getMonth()` (0 to 11) that the code reads. -/
structure JsDate where
  ms : Int
  year : Int
  month : Fin 12
  deriving DecidableEq, Repr

/-- Computable JS-style rounding to nearest (half up), as a model of the
rounding performed by `Number.prototype.toFixed`. -/
def jsRound (q : ℚ) : ℤ := Rat.floor (q + 1 / 2)

/-- Model of `parseFloat(x.toFixed(2))`: round to two decimal places. -/
def jsToFixed2 (q : ℚ) : ℚ := (jsRound (q * 100) : ℚ) / 100

/-- A rational is a whole number of cents (at most two decimal places). -/
def IsCents (q : ℚ) : Prop := (q * 100).den = 1

instance (q : ℚ) : Decidable (IsCents q) := by
  unfold IsCents; infer_instance

/-- Fixed two-decimal rendering of a nonnegative rational, modelling the
string produced by `toFixed(2)` (used for the percentage strings). -/
def fixed2Str (q : ℚ) : String :=
  let c : ℤ := jsRound (q * 100)
  toString (c / 100) ++ "." ++ pad2 (c % 100).toNat

/-- A `bankAccounts` document.  The `balance` field is `none` when the
document lacks the field (the code then falls back to 0 via `|| 0`). -/
structure BankAccount where
  associatedUser : String
  name : String
  balance : Option ℚ
  deriving DecidableEq, Repr

/-- A `transactions` document, as written by POST /transactions and read by
the query and analytics handlers. -/
structure TransactionRecord where
  fromAccountId : String
  toAccountId : String
  amount : ℚ
  date : Option JsDate
  fileName : Option String
  fileUrl : Option String
  associatedUser : String
  type : String
  createdAt : Option JsDate
  name : String
  category : String
  deriving DecidableEq, Repr

/-- The persistent state: the two Firestore collections the core touches. -/
structure DB where
  bankAccounts : List (String × BankAccount)
  transactions : List (String × TransactionRecord)
  deriving DecidableEq, Repr

/-- Document lookup in a collection (Firestore `.doc(id).get()`). -/
def findDoc {α : Type} : List (String × α) → String → Option α
  | [], _ => none
  | (i, a) :: rest, id => if i = id then some a else findDoc rest id

/-- `transaction.update(ref, { balance: b })` on an accounts collection:
replace the balance field of the document with the given id. -/
def setBalance : List (String × BankAccount) → String → ℚ →
    List (String × BankAccount)
  | [], _, _ => []
  | (i, a) :: rest, id, b =>
    if i = id then (i, { a with balance := some b }) :: rest
    else (i, a) :: setBalance rest id b

/-- Balance of an account as the engine reads it: missing document or missing
field counts as 0. -/
def balanceOf (db : DB) (id : String) : ℚ :=
  match findDoc db.bankAccounts id with
  | some a => a.balance.getD 0
  | none => 0

/-- Failure modes of POST /transactions (section 7 taxonomy). -/
inductive TransferError where
  | invalidRequest
  | accountNotFound
  | permissionDenied
  | insufficientFunds
  deriving DecidableEq, Repr

/-- The `senderTransactionData` object: the `sended` half of a transfer,
owned by the user of the source account and carrying the name of the source
account.  Both halves carry the same `dateString` in `date` and `createdAt`;
`fileName` and `fileUrl` are never assigned and stored as null. -/
def senderTransactionData (fromAccountId toAccountId : String) (amount : ℚ)
    (now : JsDate) (fromDoc : BankAccount) (category : String) :
    TransactionRecord :=
  { fromAccountId := fromAccountId
    toAccountId := toAccountId
    amount := amount
    date := some now
    fileName := none
    fileUrl := none
    associatedUser := fromDoc.associatedUser
    type := "sended"
    createdAt := some now
    name := fromDoc.name
    category := category }

/-- The `receiverTransactionData` object: the `received` half of a transfer,
owned by the user of the destination account and carrying the name of the
destination account. -/
def receiverTransactionData (fromAccountId toAccountId : String) (amount : ℚ)
    (now : JsDate) (toDoc : BankAccount) (category : String) :
    TransactionRecord :=
  { fromAccountId := fromAccountId
    toAccountId := toAccountId
    amount := amount
    date := some now
    fileName := none
    fileUrl := none
    associatedUser := toDoc.associatedUser
    type := "received"
    createdAt := some now
    name := toDoc.name
    category := category }

/-- POST /transactions.  Arguments mirror the request: the authenticated
`userId`, the body fields, the timestamp `new Date()` taken inside the
transaction, and the two store-assigned fresh record ids.  Returns the
database after the handler together with the outcome; a Firestore
transaction whose callback throws commits nothing, so every error branch
returns the database unchanged.  The two balance writes are buffered and
applied in order, so when both ids name the same document the second write
(the credit) overwrites the first (the debit). -/
def transfer (userId fromAccountId toAccountId : String) (amount : ℚ)
    (category : String) (now : JsDate) (senderRecId receiverRecId : String)
    (db : DB) : DB × Except TransferError (String × String) :=
  if fromAccountId = "" ∨ toAccountId = "" ∨ amount ≤ 0 then
    (db, .error .invalidRequest)
  else
    match findDoc db.bankAccounts fromAccountId,
          findDoc db.bankAccounts toAccountId with
    | some fromDoc, some toDoc =>
      if fromDoc.associatedUser ≠ userId then
        (db, .error .permissionDenied)
      else
        let currentBalance := fromDoc.balance.getD 0
        let transferAmount := amount
        if currentBalance < transferAmount then
          (db, .error .insufficientFunds)
        else
          let newFromBalance := currentBalance - transferAmount
          let newToBalance := toDoc.balance.getD 0 + transferAmount
          let accounts1 := setBalance db.bankAccounts fromAccountId newFromBalance
          let accounts2 := setBalance accounts1 toAccountId newToBalance
          let senderRec :=
            senderTransactionData fromAccountId toAccountId transferAmount
              now fromDoc category
          let receiverRec :=
            receiverTransactionData fromAccountId toAccountId transferAmount
              now toDoc category
          ({ bankAccounts := accounts2
             transactions :=
               (senderRecId, senderRec) :: (receiverRecId, receiverRec)
                 :: db.transactions },
           .ok (senderRecId, receiverRecId))
    | _, _ => (db, .error .accountNotFound)

/-- Outcomes of the simple document handlers (404 / 403 / 500). -/
inductive ApiError where
  | notFound
  | forbidden
  | internalError
  deriving DecidableEq, Repr

/-- Lexicographic order on character lists (executable; agrees with the JS
string order on the ASCII strings used as document ids and month keys). -/
def charListLe : List Char → List Char → Bool
  | [], _ => true
  | _ :: _, [] => false
  | a :: as, b :: bs =>
    if a < b then true else if a = b then charListLe as bs else false

/-- Executable string order used for Firestore default document-id ordering
and for the JS `Array.prototype.sort()` on month keys. -/
def strLe (a b : String) : Bool := charListLe a.data b.data

/-- Firestore default result order of an un-ordered query: ascending
document id. -/
def sortAccountsById (l : List (String × BankAccount)) :
    List (String × BankAccount) :=
  List.insertionSort (fun a b => strLe a.1 b.1 = true) l

/-- GET /bankAccount/user: filter the accounts collection on
`associatedUser == userId`, 404 on an empty result, and otherwise read
`snapshot.docs[1]` — the SECOND document.  With exactly one match that index
is `undefined` and the handler throws into its catch block (500). -/
def findBankAccountByUser (userId : String) (db : DB) :
    Except ApiError (String × BankAccount) :=
  let docs := (sortAccountsById db.bankAccounts).filter
      (fun p => p.2.associatedUser == userId)
  if docs.isEmpty then .error .notFound
  else
    match docs.get? 1 with
    | some d => .ok d
    | none => .error .internalError

/-- Replace the document with the given id (Firestore `update` merging an
entire patch that has already been applied to the read document). -/
def setDoc {α : Type} : List (String × α) → String → α → List (String × α)
  | [], _, _ => []
  | (i, a) :: rest, id, v =>
    if i = id then (i, v) :: rest else (i, a) :: setDoc rest id v

/-- A PUT /transactions/:id request body: each field of the stored record is
either absent from the payload (`none`) or present with a new value. -/
structure TxUpdate where
  fromAccountId : Option String := none
  toAccountId : Option String := none
  amount : Option ℚ := none
  date : Option (Option JsDate) := none
  fileName : Option (Option String) := none
  fileUrl : Option (Option String) := none
  associatedUser : Option String := none
  type : Option String := none
  createdAt : Option (Option JsDate) := none
  name : Option String := none
  category : Option String := none
  deriving DecidableEq, Repr

/-- Effect of `docRef.update(updateData)` after the handler has executed
`delete updateData.associatedUser`: every payload field overwrites the stored
field, except that the ownership field is stripped from the payload first. -/
def applyUpdate (tx : TransactionRecord) (u : TxUpdate) : TransactionRecord :=
  { fromAccountId := u.fromAccountId.getD tx.fromAccountId
    toAccountId := u.toAccountId.getD tx.toAccountId
    amount := u.amount.getD tx.amount
    date := u.date.getD tx.date
    fileName := u.fileName.getD tx.fileName
    fileUrl := u.fileUrl.getD tx.fileUrl
    associatedUser := tx.associatedUser
    type := u.type.getD tx.type
    createdAt := u.createdAt.getD tx.createdAt
    name := u.name.getD tx.name
    category := u.category.getD tx.category }

/-- PUT /transactions/:id: 404 when the record is absent, 403 when the
requester is not the owner, otherwise apply the payload. -/
def updateTransaction (userId txId : String) (u : TxUpdate) (db : DB) :
    Except ApiError DB :=
  match findDoc db.transactions txId with
  | none => .error .notFound
  | some tx =>
    if tx.associatedUser ≠ userId then .error .forbidden
    else
      .ok { db with
            transactions := setDoc db.transactions txId (applyUpdate tx u) }

/-- Value of the longest leading digit run, `none` when there is none
(`parseInt` yields NaN then). -/
def parseDigits (cs : List Char) : Option Nat :=
  let ds := cs.takeWhile Char.isDigit
  if ds.isEmpty then none
  else some (ds.foldl (fun n c => 10 * n + (c.toNat - 48)) 0)

/-- `parseInt(s, 10)` on a character list: skip leading whitespace, optional
sign, then the longest digit run; `none` models NaN. -/
def jsParseIntChars (cs : List Char) : Option Int :=
  match cs.dropWhile Char.isWhitespace with
  | '-' :: rest => (parseDigits rest).map (fun n => -(n : Int))
  | '+' :: rest => (parseDigits rest).map (fun n => (n : Int))
  | other => (parseDigits other).map (fun n => (n : Int))

/-- `parseInt(s, 10)`; `none` models NaN. -/
def jsParseInt (s : String) : Option Int := jsParseIntChars s.data

/-- `split(sep)` on a character list (JS `String.prototype.split` with a
single-character separator). -/
def splitOnChar (sep : Char) : List Char → List (List Char)
  | [] => [[]]
  | c :: rest =>
    let r := splitOnChar sep rest
    if c = sep then [] :: r
    else
      match r with
      | [] => [[c]]
      | h :: t => (c :: h) :: t

/-- Query parameters of GET /transactions.  `minAmount` and `maxAmount` carry
the already-parsed numeric value when the raw parameter was a truthy string;
`month` and `itemsPerPage` stay raw since the handler parses them itself. -/
structure TxQuery where
  minAmount : Option ℚ := none
  maxAmount : Option ℚ := none
  month : Option String := none
  itemsPerPage : Option String := none
  lastItemId : Option String := none
  deriving DecidableEq, Repr

/-- Response of GET /transactions (`data` plus the pagination block). -/
structure TxPage where
  data : List (String × TransactionRecord)
  itemsPerPage : Int
  nextCursorId : Option String
  hasMore : Bool
  deriving DecidableEq, Repr

/-- Sort key used by `orderBy("date", "desc")`; only applied to documents
that carry a date. -/
def dateMsOf (q : String × TransactionRecord) : Int :=
  match q.2.date with
  | some d => d.ms
  | none => 0

/-- The month filter of GET /transactions.  The code builds the half-open
timestamp interval from the first of month (monthNum, yearNum) to the first
of the next month; a timestamp lies in that interval exactly when its
calendar year and month match, which is how the filter is expressed here. -/
def matchesMonth (m y : Int) (q : String × TransactionRecord) : Bool :=
  match q.2.date with
  | some d => d.year == y && ((d.month.val : Int) + 1) == m
  | none => false

/-- Apply the `month` query parameter as the code does: split on "-", parse
both parts with `parseInt`, lift a two-digit year to 20xx, and only filter
when 1 <= monthNum <= 12 and yearNum is a truthy number. -/
def applyMonthFilter (month : Option String)
    (l : List (String × TransactionRecord)) :
    List (String × TransactionRecord) :=
  match month with
  | none => l
  | some m =>
    let parts := splitOnChar '-' m.data
    let monthNum := (parts.get? 0).bind jsParseIntChars
    let yearNum := ((parts.get? 1).bind jsParseIntChars).map
        (fun y => if y < 100 then y + 2000 else y)
    match monthNum, yearNum with
    | some mo, some y =>
      if 1 ≤ mo ∧ mo ≤ 12 ∧ y ≠ 0 then l.filter (matchesMonth mo y) else l
    | _, _ => l

/-- GET /transactions: owner filter, optional amount range and month filters,
descending date order, cursor pagination via `startAfter` on the document
resolved from `lastItemId`, and a page of `pageSize` documents.
`pageSize = parseInt(itemsPerPage, 10) || 100`.  A negative page size reaches
`query.limit` with a negative argument, which the store rejects, landing in
the catch block (500). -/
def listTransactions (userId : String) (p : TxQuery) (db : DB) :
    Except ApiError TxPage :=
  let pageSize : Int :=
    match p.itemsPerPage.bind jsParseInt with
    | none => 100
    | some n => if n = 0 then 100 else n
  let base0 := db.transactions.filter
      (fun q => q.2.associatedUser == userId && q.2.date.isSome)
  let base1 :=
    match p.minAmount with
    | some m => base0.filter (fun q => m ≤ q.2.amount)
    | none => base0
  let base2 :=
    match p.maxAmount with
    | some m => base1.filter (fun q => q.2.amount ≤ m)
    | none => base1
  let base3 := applyMonthFilter p.month base2
  let sorted := List.insertionSort (fun a b => dateMsOf b ≤ dateMsOf a) base3
  let afterCursor :=
    match p.lastItemId with
    | some cid =>
      match findDoc db.transactions cid with
      | some _ =>
        (sorted.dropWhile
          (fun (q : String × TransactionRecord) => q.1 != cid)).drop 1
      | none => sorted
    | none => sorted
  if pageSize < 0 then .error .internalError
  else
    let docs := afterCursor.take pageSize.toNat
    let nextCursorId := (docs.getLast?).map (fun q => q.1)
    let hasMore := (docs.length : Int) == pageSize
    .ok { data := docs
          itemsPerPage := pageSize
          nextCursorId := nextCursorId
          hasMore := hasMore }

/-- The grouping key of the monthly aggregation: `${year}-${month+1}` with
the month padded to two digits. -/
def monthKey (d : JsDate) : String :=
  toString d.year ++ "-" ++ pad2 (d.month.val + 1)

/-- One value of the `monthlyData` aggregation object.  `monthStart` is the
ISO date of the first of the month (the embedding assumes a UTC process, so
`toISOString` does not shift the day across the month boundary). -/
structure MonthBucket where
  income : ℚ
  expense : ℚ
  label : String
  monthStart : String
  deriving DecidableEq, Repr

/-- The bucket created on first sight of a month. -/
def newBucket (d : JsDate) : MonthBucket :=
  { income := 0
    expense := 0
    label := monthNames.getD d.month.val "" ++ " " ++ toString d.year
    monthStart := monthKey d ++ "-01" }

/-- `if (!monthlyData[monthKey]) monthlyData[monthKey] = {...}`: create the
bucket of the month when absent (JS object insertion order: appended). -/
def ensureBucket (l : List (String × MonthBucket)) (d : JsDate) :
    List (String × MonthBucket) :=
  if (findDoc l (monthKey d)).isSome then l else l ++ [(monthKey d, newBucket d)]

/-- `monthlyData[key].income += a`. -/
def addIncome : List (String × MonthBucket) → String → ℚ →
    List (String × MonthBucket)
  | [], _, _ => []
  | (k, b) :: rest, key, a =>
    if k = key then (k, { b with income := b.income + a }) :: rest
    else (k, b) :: addIncome rest key a

/-- `monthlyData[key].expense += a`. -/
def addExpense : List (String × MonthBucket) → String → ℚ →
    List (String × MonthBucket)
  | [], _, _ => []
  | (k, b) :: rest, key, a =>
    if k = key then (k, { b with expense := b.expense + a }) :: rest
    else (k, b) :: addExpense rest key a

/-- The mutable accumulators of the `snapshot.docs.forEach` loop of
GET /analytics. -/
structure AggState where
  totalAmountMoved : ℚ
  sendedCount : Nat
  receivedCount : Nat
  sendedAmount : ℚ
  receivedAmount : ℚ
  monthlyData : List (String × MonthBucket)
  deriving DecidableEq, Repr

/-- The accumulators before the loop. -/
def aggInit : AggState :=
  { totalAmountMoved := 0
    sendedCount := 0
    receivedCount := 0
    sendedAmount := 0
    receivedAmount := 0
    monthlyData := [] }

/-- One iteration of the forEach loop: KPI accumulation, then the monthly
aggregation guarded by the valid-date check. -/
def aggStep (s : AggState) (r : TransactionRecord) : AggState :=
  let amount := r.amount
  let s1 := { s with totalAmountMoved := s.totalAmountMoved + amount }
  let s2 :=
    if r.type = "sended" then
      { s1 with sendedCount := s1.sendedCount + 1
                sendedAmount := s1.sendedAmount + amount }
    else if r.type = "received" then
      { s1 with receivedCount := s1.receivedCount + 1
                receivedAmount := s1.receivedAmount + amount }
    else s1
  match r.date with
  | none => s2
  | some d =>
    let key := monthKey d
    let md := ensureBucket s2.monthlyData d
    let md2 :=
      if r.type = "sended" then addExpense md key amount
      else if r.type = "received" then addIncome md key amount
      else md
    { s2 with monthlyData := md2 }

/-- The documents the analytics query scans: all transactions of the user. -/
def userRecords (userId : String) (db : DB) : List TransactionRecord :=
  (db.transactions.filter
    (fun q => q.2.associatedUser == userId)).map (fun q => q.2)

/-- The `kpis` block of the response. -/
structure Kpis where
  totalTransactions : Nat
  totalAmountMoved : ℚ
  receivedAmount : ℚ
  sendedAmount : ℚ
  currentBalance : ℚ
  deriving DecidableEq, Repr

/-- One element of `charts.monthlyFlowData`. -/
structure FlowEntry where
  label : String
  income : ℚ
  expense : ℚ
  monthStart : String
  deriving DecidableEq, Repr

/-- One element of `charts.distributionByType` (percentage after the
`parseFloat(toFixed(2))` round trip). -/
structure PieEntry where
  name : String
  count : Nat
  percentage : ℚ
  color : String
  deriving DecidableEq, Repr

/-- One side of `charts.distributionDetails` (percentage as the rendered
string with a percent sign). -/
structure DistDetail where
  count : Nat
  percentageStr : String
  deriving DecidableEq, Repr

/-- The `charts` block of the response.  `revenueVsExpenses` entries are
(name, value, color) triples. -/
structure ChartsBlock where
  revenueVsExpenses : List (String × ℚ × String)
  distributionByType : List PieEntry
  monthlyFlowData : List FlowEntry
  distributionDetailsSended : DistDetail
  distributionDetailsReceived : DistDetail
  deriving DecidableEq, Repr

/-- The full GET /analytics response. -/
structure AnalyticsReport where
  kpis : Kpis
  charts : ChartsBlock
  deriving DecidableEq, Repr

/-- The emitted `monthlyFlowData`: bucket entries sorted ascending by month
key, incomes and expenses rounded to two decimals. -/
def flowDataOf (buckets : List (String × MonthBucket)) : List FlowEntry :=
  (List.insertionSort (fun a b => strLe a.1 b.1 = true) buckets).map
    (fun p =>
      { label := p.2.label
        income := jsToFixed2 p.2.income
        expense := jsToFixed2 p.2.expense
        monthStart := p.2.monthStart })

/-- The accumulator state after the forEach loop has processed the full
history of the user. -/
def aggOf (userId : String) (db : DB) : AggState :=
  (userRecords userId db).foldl aggStep aggInit

/-- `((sendedCount / totalCount) * 100).toFixed(2)` as a number (the value
`parseFloat` recovers), with the "0.00" fallback for an empty history. -/
def sendedPercentageOf (s : AggState) : ℚ :=
  if 0 < s.sendedCount + s.receivedCount then
    jsToFixed2 ((s.sendedCount : ℚ) /
      ((s.sendedCount + s.receivedCount : Nat) : ℚ) * 100)
  else 0

/-- The received-side percentage as a number. -/
def receivedPercentageOf (s : AggState) : ℚ :=
  if 0 < s.sendedCount + s.receivedCount then
    jsToFixed2 ((s.receivedCount : ℚ) /
      ((s.sendedCount + s.receivedCount : Nat) : ℚ) * 100)
  else 0

/-- The sent-side percentage string produced by `toFixed(2)`. -/
def sendedPercentageStrOf (s : AggState) : String :=
  if 0 < s.sendedCount + s.receivedCount then
    fixed2Str ((s.sendedCount : ℚ) /
      ((s.sendedCount + s.receivedCount : Nat) : ℚ) * 100)
  else "0.00"

/-- The received-side percentage string produced by `toFixed(2)`. -/
def receivedPercentageStrOf (s : AggState) : String :=
  if 0 < s.sendedCount + s.receivedCount then
    fixed2Str ((s.receivedCount : ℚ) /
      ((s.sendedCount + s.receivedCount : Nat) : ℚ) * 100)
  else "0.00"

/-- `charts.revenueVsExpenses`. -/
def revenueVsExpensesOf (s : AggState) : List (String × ℚ × String) :=
  [("Receitas", s.receivedAmount, "#43A047"),
   ("Despesas", s.sendedAmount, "#E53935")]

/-- `charts.distributionByType`. -/
def distributionByTypeOf (s : AggState) : List PieEntry :=
  [{ name := "Recebidas"
     count := s.receivedCount
     percentage := receivedPercentageOf s
     color := "#1E88E5" },
   { name := "Transferidas"
     count := s.sendedCount
     percentage := sendedPercentageOf s
     color := "#FFB300" }]

/-- `charts.distributionDetails.sended`. -/
def distributionDetailsSendedOf (s : AggState) : DistDetail :=
  { count := s.sendedCount
    percentageStr := sendedPercentageStrOf s ++ "%" }

/-- `charts.distributionDetails.received`. -/
def distributionDetailsReceivedOf (s : AggState) : DistDetail :=
  { count := s.receivedCount
    percentageStr := receivedPercentageStrOf s ++ "%" }

/-- GET /analytics.  Scans the full transaction history of the user, looks
the current balance up from the first account of the user (Firestore default
order, `limit(1)`, silently 0 when there is none), and assembles the KPI and
chart blocks exactly as the handler does. -/
def analytics (userId : String) (db : DB) : AnalyticsReport :=
  let recs := userRecords userId db
  let currentBalance : ℚ :=
    match ((sortAccountsById db.bankAccounts).filter
        (fun p => p.2.associatedUser == userId)).head? with
    | some p => p.2.balance.getD 0
    | none => 0
  let s := aggOf userId db
  { kpis :=
      { totalTransactions := recs.length
        totalAmountMoved := s.totalAmountMoved
        receivedAmount := s.receivedAmount
        sendedAmount := s.sendedAmount
        currentBalance := currentBalance }
    charts :=
      { revenueVsExpenses := revenueVsExpensesOf s
        distributionByType := distributionByTypeOf s
        monthlyFlowData := flowDataOf s.monthlyData
        distributionDetailsSended := distributionDetailsSendedOf s
        distributionDetailsReceived := distributionDetailsReceivedOf s } }

/-! ### Store lemmas -/

theorem findDoc_setBalance_self {l : List (String × BankAccount)}
    {id : String} {a : BankAccount} (b : ℚ) (h : findDoc l id = some a) :
    findDoc (setBalance l id b) id = some { a with balance := some b } := by
  induction l with
  | nil => simp [findDoc] at h
  | cons p rest ih =>
    obtain ⟨i, acc⟩ := p
    by_cases hid : i = id
    · subst hid
      simp [findDoc] at h
      simp [setBalance, findDoc, h]
    · simp [findDoc, hid] at h
      simp [setBalance, findDoc, hid, ih h]

theorem findDoc_setBalance_other {l : List (String × BankAccount)}
    {id id2 : String} (b : ℚ) (hne : id2 ≠ id) :
    findDoc (setBalance l id b) id2 = findDoc l id2 := by
  induction l with
  | nil => simp [setBalance]
  | cons p rest ih =>
    obtain ⟨i, acc⟩ := p
    by_cases hid : i = id
    · subst hid
      simp [setBalance, findDoc, Ne.symm hne]
    · simp [setBalance, findDoc, hid, ih]

theorem findDoc_setDoc_self {α : Type} {l : List (String × α)}
    {id : String} {a : α} (v : α) (h : findDoc l id = some a) :
    findDoc (setDoc l id v) id = some v := by
  induction l with
  | nil => simp [findDoc] at h
  | cons p rest ih =>
    obtain ⟨i, x⟩ := p
    by_cases hid : i = id
    · subst hid
      simp [setDoc, findDoc]
    · simp [findDoc, hid] at h
      simp [setDoc, findDoc, hid, ih h]

/-! ### Concrete demonstration data shared by witnesses -/

/-- A concrete timestamp (September 2024). -/
def demoDate : JsDate := { ms := 1726000000000, year := 2024, month := ⟨8, by decide⟩ }

/-- Two accounts: "A" owned by "u" with balance 100, "B" owned by "v" with
balance 50, and an empty transaction log. -/
def demoDb : DB :=
  { bankAccounts :=
      [("A", { associatedUser := "u", name := "Alice", balance := some 100 }),
       ("B", { associatedUser := "v", name := "Bob", balance := some 50 })]
    transactions := [] }

/-! ### Claim C1 -/

/-- Claim C1: for every transfer request that fails at any check (invalid
input, missing account, permission denied, or insufficient funds) the
database is unchanged: no balance moves and no transaction-log record is
created. -/
theorem failed_transfer_atomic (userId fromId toId : String) (amount : ℚ)
    (category : String) (now : JsDate) (sid rid : String) (db : DB)
    (e : TransferError) :
    (transfer userId fromId toId amount category now sid rid db).2 = .error e →
    (transfer userId fromId toId amount category now sid rid db).1 = db := by
  unfold transfer
  dsimp only
  split
  · intro _; rfl
  · split
    · split
      · intro _; rfl
      · split
        · intro _; rfl
        · intro h; simp at h
    · intro _; rfl

/-- Witness for C1: an insufficient-funds transfer out of `demoDb` fails and
leaves the database untouched. -/
theorem failed_transfer_atomic_witness :
    (transfer "u" "A" "B" 9999 "c" demoDate "s" "r" demoDb).2 =
        .error .insufficientFunds ∧
      (transfer "u" "A" "B" 9999 "c" demoDate "s" "r" demoDb).1 = demoDb :=
  ⟨by decide,
   failed_transfer_atomic "u" "A" "B" 9999 "c" demoDate "s" "r" demoDb
     .insufficientFunds (by decide)⟩

/-! ### Claim C2 -/

/-- Counterexample to claim C2 as stated: a successful self-transfer
("A" to "A", balance 100, amount 30) does not conserve the balance sum.
Both buffered writes hit the same document and the second (the credit of
100 + 30) overwrites the first (the debit of 100 - 30), so the account ends
at 130 and money is created. -/
theorem transfer_conservation_cex :
    (transfer "u" "A" "A" 30 "c" demoDate "s" "r" demoDb).2 = .ok ("s", "r") ∧
    balanceOf (transfer "u" "A" "A" 30 "c" demoDate "s" "r" demoDb).1 "A" = 130 ∧
    balanceOf demoDb "A" = 100 ∧
    balanceOf (transfer "u" "A" "A" 30 "c" demoDate "s" "r" demoDb).1 "A" +
        balanceOf (transfer "u" "A" "A" 30 "c" demoDate "s" "r" demoDb).1 "A" ≠
      balanceOf demoDb "A" + balanceOf demoDb "A" := by
  refine ⟨by decide, by decide, by decide, by decide⟩

/-- Claim C2 (amended): for every successful transfer whose source and
destination account ids are distinct, the sum of the two balances is
conserved.  (When the two ids are equal the credit overwrites the debit and
the balance grows by the amount, see the counterexample.) -/
theorem transfer_conservation_distinct (userId fromId toId : String)
    (amount : ℚ) (category : String) (now : JsDate) (sid rid : String)
    (db : DB) (ids : String × String) (hne : fromId ≠ toId) :
    (transfer userId fromId toId amount category now sid rid db).2 = .ok ids →
    balanceOf (transfer userId fromId toId amount category now sid rid db).1 fromId +
        balanceOf (transfer userId fromId toId amount category now sid rid db).1 toId =
      balanceOf db fromId + balanceOf db toId := by
  unfold transfer
  dsimp only
  split
  · intro h; simp at h
  · split
    · rename_i x1 x2 fromDoc toDoc heqf heqt
      split
      · intro h; simp at h
      · rename_i hown
        split
        · intro h; simp at h
        · rename_i hfunds
          intro _
          have e1 : findDoc (setBalance (setBalance db.bankAccounts fromId
              (fromDoc.balance.getD 0 - amount)) toId
              (toDoc.balance.getD 0 + amount)) fromId
              = some { fromDoc with
                       balance := some (fromDoc.balance.getD 0 - amount) } := by
            rw [findDoc_setBalance_other _ hne]
            exact findDoc_setBalance_self _ heqf
          have e2 : findDoc (setBalance (setBalance db.bankAccounts fromId
              (fromDoc.balance.getD 0 - amount)) toId
              (toDoc.balance.getD 0 + amount)) toId
              = some { toDoc with
                       balance := some (toDoc.balance.getD 0 + amount) } := by
            refine findDoc_setBalance_self _ ?_
            rw [findDoc_setBalance_other _ (Ne.symm hne)]
            exact heqt
          simp [balanceOf, e1, e2, heqf, heqt]
    · intro h; simp at h

/-- Witness for the amended C2: the 30-unit transfer from "A" (balance 100)
to "B" (balance 50) conserves the 150 total. -/
theorem transfer_conservation_distinct_witness :
    ("A" : String) ≠ "B" ∧
    (transfer "u" "A" "B" 30 "c" demoDate "s" "r" demoDb).2 = .ok ("s", "r") ∧
    balanceOf (transfer "u" "A" "B" 30 "c" demoDate "s" "r" demoDb).1 "A" +
        balanceOf (transfer "u" "A" "B" 30 "c" demoDate "s" "r" demoDb).1 "B" =
      balanceOf demoDb "A" + balanceOf demoDb "B" :=
  ⟨by decide, by decide,
   transfer_conservation_distinct "u" "A" "B" 30 "c" demoDate "s" "r" demoDb
     ("s", "r") (by decide) (by decide)⟩

/-! ### Claim C3 -/

/-- Claim C3: no successful transfer leaves the source account with a
negative balance (a missing balance field counts as 0).  This also covers
the self-transfer case, where the final balance is the old balance plus the
amount. -/
theorem transfer_source_balance_nonneg (userId fromId toId : String)
    (amount : ℚ) (category : String) (now : JsDate) (sid rid : String)
    (db : DB) (ids : String × String) :
    (transfer userId fromId toId amount category now sid rid db).2 = .ok ids →
    0 ≤ balanceOf (transfer userId fromId toId amount category now sid rid db).1 fromId := by
  unfold transfer
  dsimp only
  split
  · intro h; simp at h
  · split
    · rename_i x1 x2 fromDoc toDoc heqf heqt
      split
      · intro h; simp at h
      · rename_i hown
        split
        · intro h; simp at h
        · rename_i hfunds
          intro _
          rename_i hval _
          push_neg at hval
          obtain ⟨hf, ht, hamt⟩ := hval
          push_neg at hfunds
          by_cases hft : toId = fromId
          · subst hft
            rw [heqf] at heqt
            have hdocs : toDoc = fromDoc := by injection heqt.symm
            subst hdocs
            have h1 := findDoc_setBalance_self (toDoc.balance.getD 0 - amount) heqf
            have h2 := findDoc_setBalance_self (toDoc.balance.getD 0 + amount) h1
            simp [balanceOf, h2]
            linarith
          · have h1 := findDoc_setBalance_self (fromDoc.balance.getD 0 - amount) heqf
            have h2 : findDoc (setBalance (setBalance db.bankAccounts fromId
                (fromDoc.balance.getD 0 - amount)) toId
                (toDoc.balance.getD 0 + amount)) fromId
                = some { fromDoc with
                         balance := some (fromDoc.balance.getD 0 - amount) } := by
              rw [findDoc_setBalance_other _ (Ne.symm hft)]
              exact h1
            simp [balanceOf, h2]
            linarith
    · intro h; simp at h

/-- Witness for C3: after the 30-unit transfer from "A" the source balance
is 70, which is nonnegative. -/
theorem transfer_source_balance_nonneg_witness :
    (transfer "u" "A" "B" 30 "c" demoDate "s" "r" demoDb).2 = .ok ("s", "r") ∧
    0 ≤ balanceOf (transfer "u" "A" "B" 30 "c" demoDate "s" "r" demoDb).1 "A" :=
  ⟨by decide,
   transfer_source_balance_nonneg "u" "A" "B" 30 "c" demoDate "s" "r" demoDb
     ("s", "r") (by decide)⟩

/-! ### Claim C4 -/

/-- Claim C4: for every structurally valid transfer request (nonempty ids,
positive amount — the validity precondition of a transfer request) in which
both accounts exist and the requester does not own the source account, the
transfer fails with PermissionDenied, for all balances whatsoever; in
particular the permission check is decided before the balance-sufficiency
check, since the conclusion holds even when the source balance is
insufficient. -/
theorem transfer_permission_denied_first (userId fromId toId : String)
    (amount : ℚ) (category : String) (now : JsDate) (sid rid : String)
    (db : DB) (fromDoc toDoc : BankAccount)
    (hf : fromId ≠ "") (ht : toId ≠ "") (ha : 0 < amount)
    (heqf : findDoc db.bankAccounts fromId = some fromDoc)
    (heqt : findDoc db.bankAccounts toId = some toDoc)
    (hown : fromDoc.associatedUser ≠ userId) :
    (transfer userId fromId toId amount category now sid rid db).2 =
      .error .permissionDenied := by
  unfold transfer
  dsimp only
  rw [if_neg (by push_neg; exact ⟨hf, ht, ha⟩), heqf, heqt]
  dsimp only
  rw [if_pos hown]

/-- Witness for C4: user "u" debiting account "B" (owned by "v") is denied,
and the denial is reported even though the requested amount 9999 also
exceeds the balance of "B" — the permission verdict precedes the funds
check. -/
theorem transfer_permission_denied_first_witness :
    ("B" : String) ≠ "" ∧ ("A" : String) ≠ "" ∧ (0 : ℚ) < 9999 ∧
    findDoc demoDb.bankAccounts "B" =
      some { associatedUser := "v", name := "Bob", balance := some 50 } ∧
    ("v" : String) ≠ "u" ∧ (50 : ℚ) < 9999 ∧
    (transfer "u" "B" "A" 9999 "c" demoDate "s" "r" demoDb).2 =
      .error .permissionDenied :=
  ⟨by decide, by decide, by decide, by decide, by decide, by decide,
   transfer_permission_denied_first "u" "B" "A" 9999 "c" demoDate "s" "r"
     demoDb { associatedUser := "v", name := "Bob", balance := some 50 }
     { associatedUser := "u", name := "Alice", balance := some 100 }
     (by decide) (by decide) (by decide) (by decide) (by decide) (by decide)⟩

/-! ### Claim C5 -/

/-- Counterexample to claim C5 as stated: the two stored records of a
successful transfer do NOT differ only in owner and direction tag — they
also differ in the `name` field, which stores the source account's display
name in the `sended` record and the destination account's display name in
the `received` record.  Concretely, the transfer from "A" (name "Alice") to
"B" (name "Bob") stores records whose name fields are "Alice" and "Bob". -/
theorem transfer_pairing_cex :
    (transfer "u" "A" "B" 30 "c" demoDate "s" "r" demoDb).2 = .ok ("s", "r") ∧
    (findDoc (transfer "u" "A" "B" 30 "c" demoDate "s" "r" demoDb).1.transactions
        "s").map (fun r => r.name) = some "Alice" ∧
    (findDoc (transfer "u" "A" "B" 30 "c" demoDate "s" "r" demoDb).1.transactions
        "r").map (fun r => r.name) = some "Bob" ∧
    (("Alice" : String) = "Bob" → False) := by
  refine ⟨by decide, by decide, by decide, by decide⟩

/-- Claim C5 (amended): every successful transfer appends exactly two log
records sharing amount, source id, destination id, category, and timestamp
(both `date` and `createdAt`), with null file fields on both; they differ
only in owner, direction tag, and the `name` snapshot: the `sended` record
is owned by the source account's user and carries the source account name,
the `received` record is owned by the destination account's user and
carries the destination account name, and the two records get independent
store-assigned ids. -/
theorem transfer_pairing_fields (userId fromId toId : String) (amount : ℚ)
    (category : String) (now : JsDate) (sid rid : String) (db : DB)
    (fromDoc toDoc : BankAccount) (ids : String × String)
    (heqf : findDoc db.bankAccounts fromId = some fromDoc)
    (heqt : findDoc db.bankAccounts toId = some toDoc) :
    (transfer userId fromId toId amount category now sid rid db).2 = .ok ids →
    (transfer userId fromId toId amount category now sid rid db).1.transactions =
        (sid, senderTransactionData fromId toId amount now fromDoc category) ::
          (rid, receiverTransactionData fromId toId amount now toDoc category) ::
          db.transactions ∧
      ids = (sid, rid) ∧
      (senderTransactionData fromId toId amount now fromDoc category).type =
        "sended" ∧
      (senderTransactionData fromId toId amount now fromDoc category).associatedUser =
        fromDoc.associatedUser ∧
      (receiverTransactionData fromId toId amount now toDoc category).type =
        "received" ∧
      (receiverTransactionData fromId toId amount now toDoc category).associatedUser =
        toDoc.associatedUser ∧
      (senderTransactionData fromId toId amount now fromDoc category).amount =
        (receiverTransactionData fromId toId amount now toDoc category).amount ∧
      (senderTransactionData fromId toId amount now fromDoc category).fromAccountId =
        (receiverTransactionData fromId toId amount now toDoc category).fromAccountId ∧
      (senderTransactionData fromId toId amount now fromDoc category).toAccountId =
        (receiverTransactionData fromId toId amount now toDoc category).toAccountId ∧
      (senderTransactionData fromId toId amount now fromDoc category).date =
        (receiverTransactionData fromId toId amount now toDoc category).date ∧
      (senderTransactionData fromId toId amount now fromDoc category).createdAt =
        (receiverTransactionData fromId toId amount now toDoc category).createdAt ∧
      (senderTransactionData fromId toId amount now fromDoc category).category =
        (receiverTransactionData fromId toId amount now toDoc category).category ∧
      (senderTransactionData fromId toId amount now fromDoc category).fileName = none ∧
      (receiverTransactionData fromId toId amount now toDoc category).fileUrl = none ∧
      (senderTransactionData fromId toId amount now fromDoc category).name =
        fromDoc.name ∧
      (receiverTransactionData fromId toId amount now toDoc category).name =
        toDoc.name := by
  unfold transfer
  dsimp only
  split
  · intro h; simp at h
  · split
    · rename_i x1 x2 fromDoc2 toDoc2 heqf2 heqt2
      have hfd : fromDoc2 = fromDoc := by
        rw [heqf] at heqf2
        injection heqf2.symm
      have htd : toDoc2 = toDoc := by
        rw [heqt] at heqt2
        injection heqt2.symm
      subst hfd
      subst htd
      split
      · intro h; simp at h
      · split
        · intro h; simp at h
        · intro h
          dsimp only at h
          injection h with h2
          exact ⟨rfl, h2.symm, rfl, rfl, rfl, rfl, rfl, rfl, rfl, rfl, rfl,
                 rfl, rfl, rfl, rfl, rfl⟩
    · intro h; simp at h

/-- Witness for the amended C5 at the concrete 30-unit transfer from "A" to
"B" of `demoDb`. -/
theorem transfer_pairing_fields_witness :
    findDoc demoDb.bankAccounts "A" =
      some { associatedUser := "u", name := "Alice", balance := some 100 } ∧
    (transfer "u" "A" "B" 30 "c" demoDate "s" "r" demoDb).2 = .ok ("s", "r") ∧
    (transfer "u" "A" "B" 30 "c" demoDate "s" "r" demoDb).1.transactions =
      ("s", senderTransactionData "A" "B" 30 demoDate
        { associatedUser := "u", name := "Alice", balance := some 100 } "c") ::
      ("r", receiverTransactionData "A" "B" 30 demoDate
        { associatedUser := "v", name := "Bob", balance := some 50 } "c") ::
      demoDb.transactions :=
  ⟨by decide, by decide,
   ((transfer_pairing_fields "u" "A" "B" 30 "c" demoDate "s" "r" demoDb
     { associatedUser := "u", name := "Alice", balance := some 100 }
     { associatedUser := "v", name := "Bob", balance := some 50 }
     ("s", "r") (by decide) (by decide)) (by decide)).1⟩

/-! ### Claim C6 -/

/-- A user with exactly one bank account. -/
def c6DbOne : DB :=
  { bankAccounts :=
      [("acc1", { associatedUser := "w1", name := "Solo", balance := some 10 })]
    transactions := [] }

/-- A user with two bank accounts. -/
def c6DbTwo : DB :=
  { bankAccounts :=
      [("a1", { associatedUser := "w2", name := "First", balance := some 1 }),
       ("a2", { associatedUser := "w2", name := "Second", balance := some 2 })]
    transactions := [] }

/-- Claim C6 is the intended contract and the code breaks it (the spec
itself flags the `snapshot.docs[1]` indexing as a defect): for a user with
exactly one account the handler reads past the result array and throws
(an internal 500), instead of returning the first matching account, and for
a user with two accounts it returns the SECOND account of the default order,
not the first. -/
theorem findByOwner_off_by_one :
    ((sortAccountsById c6DbOne.bankAccounts).filter
        (fun p => p.2.associatedUser == "w1")).length = 1 ∧
    findBankAccountByUser "w1" c6DbOne = .error .internalError ∧
    ((sortAccountsById c6DbTwo.bankAccounts).filter
        (fun p => p.2.associatedUser == "w2")).head? =
      some ("a1", { associatedUser := "w2", name := "First", balance := some 1 }) ∧
    findBankAccountByUser "w2" c6DbTwo =
      .ok ("a2", { associatedUser := "w2", name := "Second", balance := some 2 }) := by
  refine ⟨by decide, by decide, by decide, by decide⟩

/-! ### Claim C7 -/

/-- A stored transaction record owned by "u". -/
def c7Rec : TransactionRecord :=
  { fromAccountId := "A"
    toAccountId := "B"
    amount := 10
    date := some demoDate
    fileName := none
    fileUrl := none
    associatedUser := "u"
    type := "sended"
    createdAt := some demoDate
    name := "Alice"
    category := "food" }

/-- A database holding just that record. -/
def c7Db : DB := { bankAccounts := [], transactions := [("t1", c7Rec)] }

/-- Counterexample to claim C7 as stated: the owning user CAN change the
amount (and equally the source and destination ids) through
PUT /transactions/:id — the handler only strips `associatedUser` from the
payload.  Updating record "t1" (amount 10) with payload `{amount: 999}`
succeeds and stores amount 999. -/
theorem update_transaction_cex :
    (updateTransaction "u" "t1" { amount := some 999 } c7Db).toOption.bind
        (fun db => (findDoc db.transactions "t1").map (fun r => r.amount)) =
      some 999 ∧
    (findDoc c7Db.transactions "t1").map (fun r => r.amount) = some 10 ∧
    ((999 : ℚ) = 10 → False) := by
  refine ⟨by decide, by decide, by decide⟩

/-- Claim C7 (amended): a successful update by the owning user replaces the
record by the payload-patched record in which ONLY the owning-user field is
protected: `associatedUser` is deleted from the payload before the write,
so ownership never changes; amount, source id, destination id and the other
fields are overwritten whenever the payload carries them. -/
theorem update_transaction_owner_immutable (userId txId : String)
    (u : TxUpdate) (db db2 : DB) (tx : TransactionRecord)
    (htx : findDoc db.transactions txId = some tx) :
    updateTransaction userId txId u db = .ok db2 →
    findDoc db2.transactions txId = some (applyUpdate tx u) ∧
    (applyUpdate tx u).associatedUser = tx.associatedUser := by
  unfold updateTransaction
  rw [htx]
  dsimp only
  split
  · intro h; simp at h
  · intro h
    injection h with h
    subst h
    refine ⟨?_, by simp [applyUpdate]⟩
    exact findDoc_setDoc_self _ htx

/-- Witness for the amended C7 at the concrete amount-changing update. -/
theorem update_transaction_owner_immutable_witness :
    findDoc c7Db.transactions "t1" = some c7Rec ∧
    updateTransaction "u" "t1" { amount := some 999 } c7Db =
      .ok { bankAccounts := []
            transactions := [("t1", applyUpdate c7Rec { amount := some 999 })] } ∧
    (findDoc ({ bankAccounts := []
                transactions :=
                  [("t1", applyUpdate c7Rec { amount := some 999 })] } : DB).transactions
        "t1" = some (applyUpdate c7Rec { amount := some 999 }) ∧
      (applyUpdate c7Rec { amount := some 999 }).associatedUser =
        c7Rec.associatedUser) :=
  ⟨by decide, by decide,
   update_transaction_owner_immutable "u" "t1" { amount := some 999 } c7Db
     { bankAccounts := []
       transactions := [("t1", applyUpdate c7Rec { amount := some 999 })] }
     c7Rec (by decide) (by decide)⟩

/-! ### Claim C9 -/

/-- Claim C9: whenever GET /transactions answers, `hasMore` is true exactly
when the returned page holds exactly `pageSize` records, and `pageSize`
falls back to 100 whenever `itemsPerPage` is absent or non-numeric (both
cases make `parseInt` produce NaN, modelled as `none`). -/
theorem listTransactions_hasMore (userId : String) (p : TxQuery) (db : DB)
    (page : TxPage) :
    listTransactions userId p db = .ok page →
    (page.hasMore = true ↔ (page.data.length : Int) = page.itemsPerPage) ∧
    (p.itemsPerPage.bind jsParseInt = none → page.itemsPerPage = 100) := by
  unfold listTransactions
  dsimp only
  split
  · intro h; simp at h
  · intro h
    injection h with h
    subst h
    constructor
    · simp
    · intro hpn
      dsimp only
      rw [hpn]

/-- A record of user "u" dated with epoch milliseconds 1000. -/
def c9RecA : TransactionRecord :=
  { fromAccountId := "A"
    toAccountId := "B"
    amount := 5
    date := some { ms := 1000, year := 2024, month := ⟨8, by decide⟩ }
    fileName := none
    fileUrl := none
    associatedUser := "u"
    type := "received"
    createdAt := some { ms := 1000, year := 2024, month := ⟨8, by decide⟩ }
    name := "Alice"
    category := "x" }

/-- A record of user "u" dated with epoch milliseconds 2000. -/
def c9RecB : TransactionRecord :=
  { fromAccountId := "A"
    toAccountId := "B"
    amount := 7
    date := some { ms := 2000, year := 2024, month := ⟨9, by decide⟩ }
    fileName := none
    fileUrl := none
    associatedUser := "u"
    type := "sended"
    createdAt := some { ms := 2000, year := 2024, month := ⟨9, by decide⟩ }
    name := "Alice"
    category := "x" }

/-- A log with the two records above. -/
def c9Db : DB :=
  { bankAccounts := [], transactions := [("t1", c9RecA), ("t2", c9RecB)] }

/-- The page GET /transactions produces for user "u" on `c9Db` with no
query parameters: both records in descending date order, page size 100,
cursor on the last record, and no further page. -/
def c9Page : TxPage :=
  { data := [("t2", c9RecB), ("t1", c9RecA)]
    itemsPerPage := 100
    nextCursorId := some "t1"
    hasMore := false }

/-- Witness for C9: the parameterless query on `c9Db` returns `c9Page`,
whose `hasMore` obeys the biconditional, with the default page size 100. -/
theorem listTransactions_hasMore_witness :
    listTransactions "u" {} c9Db = .ok c9Page ∧
    ((c9Page.hasMore = true ↔ (c9Page.data.length : Int) = c9Page.itemsPerPage) ∧
      (({} : TxQuery).itemsPerPage.bind jsParseInt = none →
        c9Page.itemsPerPage = 100)) :=
  ⟨by decide, listTransactions_hasMore "u" {} c9Db c9Page (by decide)⟩

/-! ### Analytics lemmas: bucket structure -/

/-- Total income over all buckets of the aggregation object. -/
def totalIncome (l : List (String × MonthBucket)) : ℚ :=
  (l.map (fun p => p.2.income)).sum

/-- Total expense over all buckets of the aggregation object. -/
def totalExpense (l : List (String × MonthBucket)) : ℚ :=
  (l.map (fun p => p.2.expense)).sum

/-- Income recorded under one month key (0 when the bucket is absent). -/
def incomeAt (l : List (String × MonthBucket)) (k : String) : ℚ :=
  ((findDoc l k).map (fun b => b.income)).getD 0

/-- Expense recorded under one month key (0 when the bucket is absent). -/
def expenseAt (l : List (String × MonthBucket)) (k : String) : ℚ :=
  ((findDoc l k).map (fun b => b.expense)).getD 0

theorem findDoc_append_single {α : Type} (l : List (String × α)) (key k : String)
    (b : α) :
    findDoc (l ++ [(key, b)]) k =
      match findDoc l k with
      | some v => some v
      | none => if key = k then some b else none := by
  induction l with
  | nil => simp [findDoc]
  | cons p rest ih =>
    obtain ⟨i, x⟩ := p
    by_cases hik : i = k
    · simp [findDoc, hik]
    · simp [findDoc, hik, ih]

theorem findDoc_addIncome (l : List (String × MonthBucket)) (key k : String)
    (a : ℚ) :
    findDoc (addIncome l key a) k =
      if key = k then
        (findDoc l k).map (fun b => { b with income := b.income + a })
      else findDoc l k := by
  induction l with
  | nil => simp [addIncome, findDoc]
  | cons p rest ih =>
    obtain ⟨i, b⟩ := p
    by_cases hik : i = key
    · subst hik
      by_cases hk : i = k
      · subst hk
        simp [addIncome, findDoc]
      · simp [addIncome, findDoc, hk]
    · by_cases hk : i = k
      · subst hk
        simp [addIncome, findDoc, hik, Ne.symm hik]
      · simp [addIncome, findDoc, hik, hk, ih]

theorem findDoc_addExpense (l : List (String × MonthBucket)) (key k : String)
    (a : ℚ) :
    findDoc (addExpense l key a) k =
      if key = k then
        (findDoc l k).map (fun b => { b with expense := b.expense + a })
      else findDoc l k := by
  induction l with
  | nil => simp [addExpense, findDoc]
  | cons p rest ih =>
    obtain ⟨i, b⟩ := p
    by_cases hik : i = key
    · subst hik
      by_cases hk : i = k
      · subst hk
        simp [addExpense, findDoc]
      · simp [addExpense, findDoc, hk]
    · by_cases hk : i = k
      · subst hk
        simp [addExpense, findDoc, hik, Ne.symm hik]
      · simp [addExpense, findDoc, hik, hk, ih]

theorem findDoc_ensure_isSome (l : List (String × MonthBucket)) (d : JsDate) :
    (findDoc (ensureBucket l d) (monthKey d)).isSome := by
  unfold ensureBucket
  split
  · assumption
  · rename_i habs
    rw [findDoc_append_single]
    simp only [Option.not_isSome_iff_eq_none] at habs
    rw [habs]
    simp

theorem totalIncome_ensure (l : List (String × MonthBucket)) (d : JsDate) :
    totalIncome (ensureBucket l d) = totalIncome l := by
  unfold ensureBucket
  split
  · rfl
  · simp [totalIncome, newBucket]

theorem totalExpense_ensure (l : List (String × MonthBucket)) (d : JsDate) :
    totalExpense (ensureBucket l d) = totalExpense l := by
  unfold ensureBucket
  split
  · rfl
  · simp [totalExpense, newBucket]

theorem totalIncome_addIncome (l : List (String × MonthBucket)) (key : String)
    (a : ℚ) (h : (findDoc l key).isSome) :
    totalIncome (addIncome l key a) = totalIncome l + a := by
  induction l with
  | nil => simp [findDoc] at h
  | cons p rest ih =>
    obtain ⟨i, b⟩ := p
    by_cases hik : i = key
    · subst hik
      simp [addIncome, totalIncome]
      ring
    · simp [findDoc, hik] at h
      simp [addIncome, totalIncome, hik] at ih ⊢
      rw [ih h]
      ring

theorem totalIncome_addExpense (l : List (String × MonthBucket)) (key : String)
    (a : ℚ) :
    totalIncome (addExpense l key a) = totalIncome l := by
  induction l with
  | nil => rfl
  | cons p rest ih =>
    obtain ⟨i, b⟩ := p
    by_cases hik : i = key
    · subst hik
      simp [addExpense, totalIncome]
    · simp [addExpense, totalIncome, hik] at ih ⊢
      rw [ih]

theorem totalExpense_addExpense (l : List (String × MonthBucket)) (key : String)
    (a : ℚ) (h : (findDoc l key).isSome) :
    totalExpense (addExpense l key a) = totalExpense l + a := by
  induction l with
  | nil => simp [findDoc] at h
  | cons p rest ih =>
    obtain ⟨i, b⟩ := p
    by_cases hik : i = key
    · subst hik
      simp [addExpense, totalExpense]
      ring
    · simp [findDoc, hik] at h
      simp [addExpense, totalExpense, hik] at ih ⊢
      rw [ih h]
      ring

theorem totalExpense_addIncome (l : List (String × MonthBucket)) (key : String)
    (a : ℚ) :
    totalExpense (addIncome l key a) = totalExpense l := by
  induction l with
  | nil => rfl
  | cons p rest ih =>
    obtain ⟨i, b⟩ := p
    by_cases hik : i = key
    · subst hik
      simp [addIncome, totalExpense]
    · simp [addIncome, totalExpense, hik] at ih ⊢
      rw [ih]

theorem incomeAt_ensure (l : List (String × MonthBucket)) (d : JsDate)
    (k : String) :
    incomeAt (ensureBucket l d) k = incomeAt l k := by
  unfold ensureBucket
  split
  · rfl
  · unfold incomeAt
    rw [findDoc_append_single]
    cases hfd : findDoc l k with
    | some v => simp
    | none =>
      by_cases hk : monthKey d = k
      · simp [hk, newBucket]
      · simp [hk]

theorem expenseAt_ensure (l : List (String × MonthBucket)) (d : JsDate)
    (k : String) :
    expenseAt (ensureBucket l d) k = expenseAt l k := by
  unfold ensureBucket
  split
  · rfl
  · unfold expenseAt
    rw [findDoc_append_single]
    cases hfd : findDoc l k with
    | some v => simp
    | none =>
      by_cases hk : monthKey d = k
      · simp [hk, newBucket]
      · simp [hk]

theorem incomeAt_addIncome (l : List (String × MonthBucket)) (key k : String)
    (a : ℚ) (h : (findDoc l key).isSome) :
    incomeAt (addIncome l key a) k =
      incomeAt l k + (if key = k then a else 0) := by
  unfold incomeAt
  rw [findDoc_addIncome]
  by_cases hk : key = k
  · subst hk
    obtain ⟨b, hb⟩ := Option.isSome_iff_exists.mp h
    simp [hb]
  · simp [hk]

theorem incomeAt_addExpense (l : List (String × MonthBucket)) (key k : String)
    (a : ℚ) :
    incomeAt (addExpense l key a) k = incomeAt l k := by
  unfold incomeAt
  rw [findDoc_addExpense]
  by_cases hk : key = k
  · subst hk
    cases hfd : findDoc l key <;> simp
  · simp [hk]

theorem expenseAt_addExpense (l : List (String × MonthBucket)) (key k : String)
    (a : ℚ) (h : (findDoc l key).isSome) :
    expenseAt (addExpense l key a) k =
      expenseAt l k + (if key = k then a else 0) := by
  unfold expenseAt
  rw [findDoc_addExpense]
  by_cases hk : key = k
  · subst hk
    obtain ⟨b, hb⟩ := Option.isSome_iff_exists.mp h
    simp [hb]
  · simp [hk]

theorem expenseAt_addIncome (l : List (String × MonthBucket)) (key k : String)
    (a : ℚ) :
    expenseAt (addIncome l key a) k = expenseAt l k := by
  unfold expenseAt
  rw [findDoc_addIncome]
  by_cases hk : key = k
  · subst hk
    cases hfd : findDoc l key <;> simp
  · simp [hk]

/-! ### Analytics lemmas: one loop iteration -/

theorem aggStep_totalAmountMoved (s : AggState) (r : TransactionRecord) :
    (aggStep s r).totalAmountMoved = s.totalAmountMoved + r.amount := by
  by_cases hs : r.type = "sended"
  · have hr : r.type ≠ "received" := by rw [hs]; decide
    cases hd : r.date <;> simp [aggStep, hd, hs, hr]
  · by_cases hr : r.type = "received"
    · cases hd : r.date <;> simp [aggStep, hd, hs, hr]
    · cases hd : r.date <;> simp [aggStep, hd, hs, hr]

theorem aggStep_sendedCount (s : AggState) (r : TransactionRecord) :
    (aggStep s r).sendedCount =
      s.sendedCount + (if r.type = "sended" then 1 else 0) := by
  by_cases hs : r.type = "sended"
  · have hr : r.type ≠ "received" := by rw [hs]; decide
    cases hd : r.date <;> simp [aggStep, hd, hs, hr]
  · by_cases hr : r.type = "received"
    · cases hd : r.date <;> simp [aggStep, hd, hs, hr]
    · cases hd : r.date <;> simp [aggStep, hd, hs, hr]

theorem aggStep_receivedCount (s : AggState) (r : TransactionRecord) :
    (aggStep s r).receivedCount =
      s.receivedCount + (if r.type = "received" then 1 else 0) := by
  by_cases hs : r.type = "sended"
  · have hr : r.type ≠ "received" := by rw [hs]; decide
    cases hd : r.date <;> simp [aggStep, hd, hs, hr]
  · by_cases hr : r.type = "received"
    · cases hd : r.date <;> simp [aggStep, hd, hs, hr]
    · cases hd : r.date <;> simp [aggStep, hd, hs, hr]

theorem aggStep_sendedAmount (s : AggState) (r : TransactionRecord) :
    (aggStep s r).sendedAmount =
      s.sendedAmount + (if r.type = "sended" then r.amount else 0) := by
  by_cases hs : r.type = "sended"
  · have hr : r.type ≠ "received" := by rw [hs]; decide
    cases hd : r.date <;> simp [aggStep, hd, hs, hr]
  · by_cases hr : r.type = "received"
    · cases hd : r.date <;> simp [aggStep, hd, hs, hr]
    · cases hd : r.date <;> simp [aggStep, hd, hs, hr]

theorem aggStep_receivedAmount (s : AggState) (r : TransactionRecord) :
    (aggStep s r).receivedAmount =
      s.receivedAmount + (if r.type = "received" then r.amount else 0) := by
  by_cases hs : r.type = "sended"
  · have hr : r.type ≠ "received" := by rw [hs]; decide
    cases hd : r.date <;> simp [aggStep, hd, hs, hr]
  · by_cases hr : r.type = "received"
    · cases hd : r.date <;> simp [aggStep, hd, hs, hr]
    · cases hd : r.date <;> simp [aggStep, hd, hs, hr]

theorem aggStep_monthlyData_none (s : AggState) (r : TransactionRecord)
    (hd : r.date = none) : (aggStep s r).monthlyData = s.monthlyData := by
  by_cases hs : r.type = "sended"
  · have hr : r.type ≠ "received" := by rw [hs]; decide
    simp [aggStep, hd, hs, hr]
  · by_cases hr : r.type = "received"
    · simp [aggStep, hd, hs, hr]
    · simp [aggStep, hd, hs, hr]

theorem aggStep_monthlyData_some (s : AggState) (r : TransactionRecord)
    (d : JsDate) (hd : r.date = some d) :
    (aggStep s r).monthlyData =
      if r.type = "sended" then
        addExpense (ensureBucket s.monthlyData d) (monthKey d) r.amount
      else if r.type = "received" then
        addIncome (ensureBucket s.monthlyData d) (monthKey d) r.amount
      else ensureBucket s.monthlyData d := by
  by_cases hs : r.type = "sended"
  · have hr : r.type ≠ "received" := by rw [hs]; decide
    simp [aggStep, hd, hs, hr]
  · by_cases hr : r.type = "received"
    · simp [aggStep, hd, hs, hr]
    · simp [aggStep, hd, hs, hr]

/-! ### Analytics lemmas: the whole loop -/

theorem agg_foldl_totalAmountMoved (recs : List TransactionRecord) :
    ∀ s : AggState, (recs.foldl aggStep s).totalAmountMoved =
      s.totalAmountMoved + (recs.map (fun r => r.amount)).sum := by
  induction recs with
  | nil => intro s; simp
  | cons r rest ih =>
    intro s
    rw [List.foldl_cons, ih, aggStep_totalAmountMoved]
    simp
    ring

theorem agg_foldl_sendedCount (recs : List TransactionRecord) :
    ∀ s : AggState, (recs.foldl aggStep s).sendedCount =
      s.sendedCount + recs.countP (fun r => r.type == "sended") := by
  induction recs with
  | nil => intro s; simp
  | cons r rest ih =>
    intro s
    rw [List.foldl_cons, ih, aggStep_sendedCount]
    by_cases h : r.type = "sended" <;> simp [List.countP_cons, h] <;> omega

theorem agg_foldl_receivedCount (recs : List TransactionRecord) :
    ∀ s : AggState, (recs.foldl aggStep s).receivedCount =
      s.receivedCount + recs.countP (fun r => r.type == "received") := by
  induction recs with
  | nil => intro s; simp
  | cons r rest ih =>
    intro s
    rw [List.foldl_cons, ih, aggStep_receivedCount]
    by_cases h : r.type = "received" <;> simp [List.countP_cons, h] <;> omega

theorem agg_foldl_sendedAmount (recs : List TransactionRecord) :
    ∀ s : AggState, (recs.foldl aggStep s).sendedAmount =
      s.sendedAmount +
        ((recs.filter (fun r => r.type == "sended")).map
          (fun r => r.amount)).sum := by
  induction recs with
  | nil => intro s; simp
  | cons r rest ih =>
    intro s
    rw [List.foldl_cons, ih, aggStep_sendedAmount]
    by_cases h : r.type = "sended" <;> simp [List.filter_cons, h] <;> ring

theorem agg_foldl_receivedAmount (recs : List TransactionRecord) :
    ∀ s : AggState, (recs.foldl aggStep s).receivedAmount =
      s.receivedAmount +
        ((recs.filter (fun r => r.type == "received")).map
          (fun r => r.amount)).sum := by
  induction recs with
  | nil => intro s; simp
  | cons r rest ih =>
    intro s
    rw [List.foldl_cons, ih, aggStep_receivedAmount]
    by_cases h : r.type = "received" <;> simp [List.filter_cons, h] <;> ring

theorem agg_foldl_totalIncome (recs : List TransactionRecord) :
    ∀ s : AggState, totalIncome (recs.foldl aggStep s).monthlyData =
      totalIncome s.monthlyData +
        ((recs.filter (fun r => r.date.isSome && r.type == "received")).map
          (fun r => r.amount)).sum := by
  induction recs with
  | nil => intro s; simp
  | cons r rest ih =>
    intro s
    rw [List.foldl_cons, ih]
    have hstep : totalIncome (aggStep s r).monthlyData =
        totalIncome s.monthlyData +
          (if r.date.isSome && r.type == "received" then r.amount else 0) := by
      cases hd : r.date with
      | none => rw [aggStep_monthlyData_none s r hd]; simp [hd]
      | some d =>
        rw [aggStep_monthlyData_some s r d hd]
        by_cases hs : r.type = "sended"
        · have hr : r.type ≠ "received" := by rw [hs]; decide
          rw [if_pos hs, totalIncome_addExpense, totalIncome_ensure]
          simp [hr]
        · by_cases hr : r.type = "received"
          · rw [if_neg hs, if_pos hr,
              totalIncome_addIncome _ _ _ (findDoc_ensure_isSome _ _),
              totalIncome_ensure]
            simp [hd, hr]
          · rw [if_neg hs, if_neg hr, totalIncome_ensure]
            simp [hr]
    rw [hstep]
    cases hb : (r.date.isSome && r.type == "received") <;>
      simp [List.filter_cons, hb] <;> ring

theorem agg_foldl_totalExpense (recs : List TransactionRecord) :
    ∀ s : AggState, totalExpense (recs.foldl aggStep s).monthlyData =
      totalExpense s.monthlyData +
        ((recs.filter (fun r => r.date.isSome && r.type == "sended")).map
          (fun r => r.amount)).sum := by
  induction recs with
  | nil => intro s; simp
  | cons r rest ih =>
    intro s
    rw [List.foldl_cons, ih]
    have hstep : totalExpense (aggStep s r).monthlyData =
        totalExpense s.monthlyData +
          (if r.date.isSome && r.type == "sended" then r.amount else 0) := by
      cases hd : r.date with
      | none => rw [aggStep_monthlyData_none s r hd]; simp [hd]
      | some d =>
        rw [aggStep_monthlyData_some s r d hd]
        by_cases hs : r.type = "sended"
        · rw [if_pos hs,
            totalExpense_addExpense _ _ _ (findDoc_ensure_isSome _ _),
            totalExpense_ensure]
          simp [hd, hs]
        · by_cases hr : r.type = "received"
          · rw [if_neg hs, if_pos hr, totalExpense_addIncome, totalExpense_ensure]
            simp [hs]
          · rw [if_neg hs, if_neg hr, totalExpense_ensure]
            simp [hs]
    rw [hstep]
    cases hb : (r.date.isSome && r.type == "sended") <;>
      simp [List.filter_cons, hb] <;> ring

theorem agg_foldl_incomeAt (recs : List TransactionRecord) (k : String) :
    ∀ s : AggState, incomeAt (recs.foldl aggStep s).monthlyData k =
      incomeAt s.monthlyData k +
        ((recs.filter
            (fun r => (r.date.map monthKey == some k) && r.type == "received")).map
          (fun r => r.amount)).sum := by
  induction recs with
  | nil => intro s; simp
  | cons r rest ih =>
    intro s
    rw [List.foldl_cons, ih]
    have hstep : incomeAt (aggStep s r).monthlyData k =
        incomeAt s.monthlyData k +
          (if (r.date.map monthKey == some k) && r.type == "received" then
            r.amount else 0) := by
      cases hd : r.date with
      | none => rw [aggStep_monthlyData_none s r hd]; simp [hd]
      | some d =>
        rw [aggStep_monthlyData_some s r d hd]
        by_cases hs : r.type = "sended"
        · have hr : r.type ≠ "received" := by rw [hs]; decide
          rw [if_pos hs, incomeAt_addExpense, incomeAt_ensure]
          simp [hr]
        · by_cases hr : r.type = "received"
          · rw [if_neg hs, if_pos hr,
              incomeAt_addIncome _ _ _ _ (findDoc_ensure_isSome _ _),
              incomeAt_ensure]
            by_cases hk : monthKey d = k <;> simp [hd, hr, hk]
          · rw [if_neg hs, if_neg hr, incomeAt_ensure]
            simp [hr]
    rw [hstep]
    cases hb : ((r.date.map monthKey == some k) && r.type == "received") <;>
      simp [List.filter_cons, hb] <;> ring

theorem agg_foldl_expenseAt (recs : List TransactionRecord) (k : String) :
    ∀ s : AggState, expenseAt (recs.foldl aggStep s).monthlyData k =
      expenseAt s.monthlyData k +
        ((recs.filter
            (fun r => (r.date.map monthKey == some k) && r.type == "sended")).map
          (fun r => r.amount)).sum := by
  induction recs with
  | nil => intro s; simp
  | cons r rest ih =>
    intro s
    rw [List.foldl_cons, ih]
    have hstep : expenseAt (aggStep s r).monthlyData k =
        expenseAt s.monthlyData k +
          (if (r.date.map monthKey == some k) && r.type == "sended" then
            r.amount else 0) := by
      cases hd : r.date with
      | none => rw [aggStep_monthlyData_none s r hd]; simp [hd]
      | some d =>
        rw [aggStep_monthlyData_some s r d hd]
        by_cases hs : r.type = "sended"
        · rw [if_pos hs,
            expenseAt_addExpense _ _ _ _ (findDoc_ensure_isSome _ _),
            expenseAt_ensure]
          by_cases hk : monthKey d = k <;> simp [hd, hs, hk]
        · by_cases hr : r.type = "received"
          · rw [if_neg hs, if_pos hr, expenseAt_addIncome, expenseAt_ensure]
            simp [hs]
          · rw [if_neg hs, if_neg hr, expenseAt_ensure]
            simp [hs]
    rw [hstep]
    cases hb : ((r.date.map monthKey == some k) && r.type == "sended") <;>
      simp [List.filter_cons, hb] <;> ring

/-! ### Rounding lemmas -/

theorem ratFloor_eq_intFloor (q : ℚ) : Rat.floor q = ⌊q⌋ :=
  (Rat.floor_def' q).trans Rat.floor_def.symm

theorem jsRound_eq_round (q : ℚ) : jsRound q = round q := by
  rw [jsRound, ratFloor_eq_intFloor, round_eq]

theorem IsCents.zero : IsCents 0 := by
  norm_num [IsCents]

theorem IsCents.add {a b : ℚ} (ha : IsCents a) (hb : IsCents b) :
    IsCents (a + b) := by
  unfold IsCents at *
  have h1 : (a * 100) = ((a * 100).num : ℚ) := by
    rw [← Rat.num_div_den (a * 100), ha]; simp
  have h2 : (b * 100) = ((b * 100).num : ℚ) := by
    rw [← Rat.num_div_den (b * 100), hb]; simp
  have h3 : (a + b) * 100 = (((a * 100).num + (b * 100).num : ℤ) : ℚ) := by
    push_cast
    rw [← h1, ← h2]; ring
  rw [h3]
  exact Rat.den_intCast _

theorem jsToFixed2_cents {q : ℚ} (h : IsCents q) : jsToFixed2 q = q := by
  have h1 : (q * 100) = ((q * 100).num : ℚ) := by
    rw [← Rat.num_div_den (q * 100), h]; simp
  unfold jsToFixed2
  rw [jsRound_eq_round, h1, round_intCast, ← h1]
  field_simp

/-! ### Cents preservation through the aggregation -/

/-- All bucket values are whole numbers of cents. -/
def BucketsCents (l : List (String × MonthBucket)) : Prop :=
  ∀ p ∈ l, IsCents p.2.income ∧ IsCents p.2.expense

theorem BucketsCents.ensure {l : List (String × MonthBucket)} (d : JsDate)
    (h : BucketsCents l) : BucketsCents (ensureBucket l d) := by
  unfold ensureBucket
  split
  · exact h
  · intro p hp
    rcases List.mem_append.mp hp with hl | hr
    · exact h p hl
    · simp at hr
      subst hr
      exact ⟨IsCents.zero, IsCents.zero⟩

theorem BucketsCents.addIncome {l : List (String × MonthBucket)}
    {key : String} {a : ℚ} (ha : IsCents a) (h : BucketsCents l) :
    BucketsCents (addIncome l key a) := by
  induction l with
  | nil => intro p hp; simp [PrimeBank.addIncome] at hp
  | cons q rest ih =>
    obtain ⟨i, b⟩ := q
    have hhead := h (i, b) (List.mem_cons_self _ _)
    have htail : BucketsCents rest := fun p hp => h p (List.mem_cons_of_mem _ hp)
    intro p hp
    unfold PrimeBank.addIncome at hp
    by_cases hik : i = key
    · rw [if_pos hik] at hp
      rcases List.mem_cons.mp hp with hl | hr
      · subst hl
        exact ⟨hhead.1.add ha, hhead.2⟩
      · exact htail p hr
    · rw [if_neg hik] at hp
      rcases List.mem_cons.mp hp with hl | hr
      · subst hl
        exact hhead
      · exact ih htail p hr

theorem BucketsCents.addExpense {l : List (String × MonthBucket)}
    {key : String} {a : ℚ} (ha : IsCents a) (h : BucketsCents l) :
    BucketsCents (addExpense l key a) := by
  induction l with
  | nil => intro p hp; simp [PrimeBank.addExpense] at hp
  | cons q rest ih =>
    obtain ⟨i, b⟩ := q
    have hhead := h (i, b) (List.mem_cons_self _ _)
    have htail : BucketsCents rest := fun p hp => h p (List.mem_cons_of_mem _ hp)
    intro p hp
    unfold PrimeBank.addExpense at hp
    by_cases hik : i = key
    · rw [if_pos hik] at hp
      rcases List.mem_cons.mp hp with hl | hr
      · subst hl
        exact ⟨hhead.1, hhead.2.add ha⟩
      · exact htail p hr
    · rw [if_neg hik] at hp
      rcases List.mem_cons.mp hp with hl | hr
      · subst hl
        exact hhead
      · exact ih htail p hr

theorem agg_foldl_cents (recs : List TransactionRecord)
    (hrecs : ∀ r ∈ recs, IsCents r.amount) :
    ∀ s : AggState, BucketsCents s.monthlyData →
      BucketsCents (recs.foldl aggStep s).monthlyData := by
  induction recs with
  | nil => intro s hs; exact hs
  | cons r rest ih =>
    intro s hs
    rw [List.foldl_cons]
    have hra : IsCents r.amount := hrecs r (List.mem_cons_self _ _)
    have hrest : ∀ x ∈ rest, IsCents x.amount :=
      fun x hx => hrecs x (List.mem_cons_of_mem _ hx)
    refine ih hrest (aggStep s r) ?_
    cases hd : r.date with
    | none => rw [aggStep_monthlyData_none s r hd]; exact hs
    | some d =>
      rw [aggStep_monthlyData_some s r d hd]
      by_cases hstype : r.type = "sended"
      · rw [if_pos hstype]
        exact (hs.ensure d).addExpense hra
      · by_cases hrtype : r.type = "received"
        · rw [if_neg hstype, if_pos hrtype]
          exact (hs.ensure d).addIncome hra
        · rw [if_neg hstype, if_neg hrtype]
          exact hs.ensure d

/-! ### The emitted flow data -/

theorem flowDataOf_income_sum (buckets : List (String × MonthBucket))
    (hc : BucketsCents buckets) :
    ((flowDataOf buckets).map (fun e => e.income)).sum = totalIncome buckets := by
  unfold flowDataOf totalIncome
  have hperm :
      List.Perm (List.insertionSort (fun a b => strLe a.1 b.1 = true) buckets)
        buckets := List.perm_insertionSort _ _
  rw [List.map_map]
  have hmaps :
      (List.insertionSort (fun a b => strLe a.1 b.1 = true) buckets).map
          ((fun e : FlowEntry => e.income) ∘ (fun p : String × MonthBucket =>
            ({ label := p.2.label, income := jsToFixed2 p.2.income,
               expense := jsToFixed2 p.2.expense,
               monthStart := p.2.monthStart } : FlowEntry))) =
        (List.insertionSort (fun a b => strLe a.1 b.1 = true) buckets).map
          (fun p => p.2.income) := by
    refine List.map_congr_left ?_
    intro p hp
    have hmem : p ∈ buckets := hperm.subset hp
    exact jsToFixed2_cents (hc p hmem).1
  rw [hmaps]
  exact (hperm.map (fun p => p.2.income)).sum_eq

theorem flowDataOf_expense_sum (buckets : List (String × MonthBucket))
    (hc : BucketsCents buckets) :
    ((flowDataOf buckets).map (fun e => e.expense)).sum = totalExpense buckets := by
  unfold flowDataOf totalExpense
  have hperm :
      List.Perm (List.insertionSort (fun a b => strLe a.1 b.1 = true) buckets)
        buckets := List.perm_insertionSort _ _
  rw [List.map_map]
  have hmaps :
      (List.insertionSort (fun a b => strLe a.1 b.1 = true) buckets).map
          ((fun e : FlowEntry => e.expense) ∘ (fun p : String × MonthBucket =>
            ({ label := p.2.label, income := jsToFixed2 p.2.income,
               expense := jsToFixed2 p.2.expense,
               monthStart := p.2.monthStart } : FlowEntry))) =
        (List.insertionSort (fun a b => strLe a.1 b.1 = true) buckets).map
          (fun p => p.2.expense) := by
    refine List.map_congr_left ?_
    intro p hp
    have hmem : p ∈ buckets := hperm.subset hp
    exact jsToFixed2_cents (hc p hmem).2
  rw [hmaps]
  exact (hperm.map (fun p => p.2.expense)).sum_eq

/-! ### Claim C8 -/

/-- A received record with an unparseable date. -/
def c8Rec : TransactionRecord :=
  { fromAccountId := "A"
    toAccountId := "B"
    amount := 5
    date := none
    fileName := none
    fileUrl := none
    associatedUser := "u"
    type := "received"
    createdAt := none
    name := "X"
    category := "y" }

/-- A log holding just that record. -/
def c8Db : DB := { bankAccounts := [], transactions := [("t", c8Rec)] }

/-- Counterexample to claim C8 as stated: a received record whose date does
not parse contributes its amount to `kpis.receivedAmount` but lands in no
monthly bucket, so the income sum over `monthlyFlowData` (here 0, the bucket
list being empty) falls short of `kpis.receivedAmount` (here 5). -/
theorem analytics_consistency_cex :
    (analytics "u" c8Db).kpis.totalAmountMoved = 5 ∧
    (analytics "u" c8Db).kpis.receivedAmount = 5 ∧
    (analytics "u" c8Db).charts.monthlyFlowData = [] ∧
    ¬(((analytics "u" c8Db).charts.monthlyFlowData.map (fun e => e.income)).sum =
        (analytics "u" c8Db).kpis.receivedAmount) := by
  refine ⟨by decide, by decide, by decide, by decide⟩

/-- Claim C8 (amended): `kpis.totalAmountMoved` always equals the sum of all
the user's record amounts; and provided every record of the user carries a
parseable date and a whole-number-of-cents amount (so that the two-decimal
rounding of bucket values is lossless), the income sum over
`monthlyFlowData` equals `kpis.receivedAmount` and the expense sum equals
`kpis.sendedAmount`.  A record with an unparseable date is counted in the
KPIs but in no bucket, breaking the unconditional form. -/
theorem analytics_consistency (userId : String) (db : DB) :
    (analytics userId db).kpis.totalAmountMoved =
      ((userRecords userId db).map (fun r => r.amount)).sum ∧
    ((∀ r ∈ userRecords userId db, r.date.isSome = true ∧ IsCents r.amount) →
      ((analytics userId db).charts.monthlyFlowData.map (fun e => e.income)).sum =
          (analytics userId db).kpis.receivedAmount ∧
        ((analytics userId db).charts.monthlyFlowData.map (fun e => e.expense)).sum =
          (analytics userId db).kpis.sendedAmount) := by
  have hproj1 : (analytics userId db).kpis.totalAmountMoved =
      (aggOf userId db).totalAmountMoved := rfl
  have hproj2 : (analytics userId db).kpis.receivedAmount =
      (aggOf userId db).receivedAmount := rfl
  have hproj3 : (analytics userId db).kpis.sendedAmount =
      (aggOf userId db).sendedAmount := rfl
  have hproj4 : (analytics userId db).charts.monthlyFlowData =
      flowDataOf (aggOf userId db).monthlyData := rfl
  constructor
  · rw [hproj1, aggOf, agg_foldl_totalAmountMoved]
    simp [aggInit]
  · intro hvalid
    have hcents : ∀ r ∈ userRecords userId db, IsCents r.amount :=
      fun r hr => (hvalid r hr).2
    have hdates : ∀ r ∈ userRecords userId db, r.date.isSome = true :=
      fun r hr => (hvalid r hr).1
    have hbc : BucketsCents (aggOf userId db).monthlyData := by
      rw [aggOf]
      refine agg_foldl_cents _ hcents aggInit ?_
      intro p hp
      simp [aggInit] at hp
    have hfiltR : (userRecords userId db).filter
          (fun r => r.date.isSome && r.type == "received") =
        (userRecords userId db).filter (fun r => r.type == "received") :=
      List.filter_congr (fun r hr => by rw [hdates r hr]; simp)
    have hfiltS : (userRecords userId db).filter
          (fun r => r.date.isSome && r.type == "sended") =
        (userRecords userId db).filter (fun r => r.type == "sended") :=
      List.filter_congr (fun r hr => by rw [hdates r hr]; simp)
    constructor
    · rw [hproj4, hproj2, flowDataOf_income_sum _ hbc, aggOf,
        agg_foldl_totalIncome, agg_foldl_receivedAmount, hfiltR]
      simp [aggInit, totalIncome]
    · rw [hproj4, hproj3, flowDataOf_expense_sum _ hbc, aggOf,
        agg_foldl_totalExpense, agg_foldl_sendedAmount, hfiltS]
      simp [aggInit, totalExpense]

/-- Witness for the amended C8 on `c9Db`, whose two records have valid dates
and integral amounts. -/
theorem analytics_consistency_witness :
    ((analytics "u" c9Db).kpis.totalAmountMoved =
      ((userRecords "u" c9Db).map (fun r => r.amount)).sum) ∧
    (∀ r ∈ userRecords "u" c9Db, r.date.isSome = true ∧ IsCents r.amount) ∧
    (((analytics "u" c9Db).charts.monthlyFlowData.map (fun e => e.income)).sum =
        (analytics "u" c9Db).kpis.receivedAmount ∧
      ((analytics "u" c9Db).charts.monthlyFlowData.map (fun e => e.expense)).sum =
        (analytics "u" c9Db).kpis.sendedAmount) :=
  ⟨(analytics_consistency "u" c9Db).1, by decide,
   (analytics_consistency "u" c9Db).2 (by decide)⟩

/-! ### Claim C10 -/

/-- Claim C10: a record of the user whose direction tag is neither "sended"
nor "received" is counted by `kpis.totalTransactions` and adds its amount to
`kpis.totalAmountMoved`, but contributes nothing to the directional KPI
amounts, to any chart count or percentage, or to the income/expense of any
monthly bucket (a valid date may at most create an empty bucket whose income
and expense stay 0, which the per-key equalities below capture). -/
theorem analytics_unknown_type (userId rid : String) (r : TransactionRecord)
    (db db2 : DB) (hu : r.associatedUser = userId)
    (hs : r.type ≠ "sended") (hr : r.type ≠ "received")
    (htx : db2.transactions = (rid, r) :: db.transactions) :
    (analytics userId db2).kpis.totalTransactions =
        (analytics userId db).kpis.totalTransactions + 1 ∧
    (analytics userId db2).kpis.totalAmountMoved =
        (analytics userId db).kpis.totalAmountMoved + r.amount ∧
    (analytics userId db2).kpis.receivedAmount =
        (analytics userId db).kpis.receivedAmount ∧
    (analytics userId db2).kpis.sendedAmount =
        (analytics userId db).kpis.sendedAmount ∧
    (analytics userId db2).charts.revenueVsExpenses =
        (analytics userId db).charts.revenueVsExpenses ∧
    (analytics userId db2).charts.distributionByType =
        (analytics userId db).charts.distributionByType ∧
    (analytics userId db2).charts.distributionDetailsSended =
        (analytics userId db).charts.distributionDetailsSended ∧
    (analytics userId db2).charts.distributionDetailsReceived =
        (analytics userId db).charts.distributionDetailsReceived ∧
    (∀ k, incomeAt (aggOf userId db2).monthlyData k =
          incomeAt (aggOf userId db).monthlyData k ∧
        expenseAt (aggOf userId db2).monthlyData k =
          expenseAt (aggOf userId db).monthlyData k) := by
  have hur : userRecords userId db2 = r :: userRecords userId db := by
    unfold userRecords
    rw [htx]
    simp [List.filter_cons, hu]
  have hagg : aggOf userId db2 =
      (userRecords userId db).foldl aggStep (aggStep aggInit r) := by
    rw [aggOf, hur, List.foldl_cons]
  have hTM : (aggOf userId db2).totalAmountMoved =
      (aggOf userId db).totalAmountMoved + r.amount := by
    rw [hagg, agg_foldl_totalAmountMoved, aggStep_totalAmountMoved, aggOf,
      agg_foldl_totalAmountMoved]
    ring
  have hRA : (aggOf userId db2).receivedAmount =
      (aggOf userId db).receivedAmount := by
    rw [hagg, agg_foldl_receivedAmount, aggStep_receivedAmount, aggOf,
      agg_foldl_receivedAmount]
    simp [hr]
  have hSA : (aggOf userId db2).sendedAmount =
      (aggOf userId db).sendedAmount := by
    rw [hagg, agg_foldl_sendedAmount, aggStep_sendedAmount, aggOf,
      agg_foldl_sendedAmount]
    simp [hs]
  have hSC : (aggOf userId db2).sendedCount =
      (aggOf userId db).sendedCount := by
    rw [hagg, agg_foldl_sendedCount, aggStep_sendedCount, aggOf,
      agg_foldl_sendedCount]
    simp [hs]
  have hRC : (aggOf userId db2).receivedCount =
      (aggOf userId db).receivedCount := by
    rw [hagg, agg_foldl_receivedCount, aggStep_receivedCount, aggOf,
      agg_foldl_receivedCount]
    simp [hr]
  refine ⟨?_, hTM, hRA, hSA, ?_, ?_, ?_, ?_, ?_⟩
  · show (userRecords userId db2).length = (userRecords userId db).length + 1
    rw [hur]
    simp
  · show revenueVsExpensesOf (aggOf userId db2) =
      revenueVsExpensesOf (aggOf userId db)
    unfold revenueVsExpensesOf
    rw [hRA, hSA]
  · show distributionByTypeOf (aggOf userId db2) =
      distributionByTypeOf (aggOf userId db)
    unfold distributionByTypeOf receivedPercentageOf sendedPercentageOf
    rw [hSC, hRC]
  · show distributionDetailsSendedOf (aggOf userId db2) =
      distributionDetailsSendedOf (aggOf userId db)
    unfold distributionDetailsSendedOf sendedPercentageStrOf
    rw [hSC, hRC]
  · show distributionDetailsReceivedOf (aggOf userId db2) =
      distributionDetailsReceivedOf (aggOf userId db)
    unfold distributionDetailsReceivedOf receivedPercentageStrOf
    rw [hSC, hRC]
  · intro k
    have hBI : incomeAt (aggStep aggInit r).monthlyData k = 0 := by
      cases hd : r.date with
      | none =>
        rw [aggStep_monthlyData_none _ _ hd]
        simp [aggInit, incomeAt, findDoc]
      | some d =>
        rw [aggStep_monthlyData_some _ _ d hd, if_neg hs, if_neg hr,
          incomeAt_ensure]
        simp [aggInit, incomeAt, findDoc]
    have hBE : expenseAt (aggStep aggInit r).monthlyData k = 0 := by
      cases hd : r.date with
      | none =>
        rw [aggStep_monthlyData_none _ _ hd]
        simp [aggInit, expenseAt, findDoc]
      | some d =>
        rw [aggStep_monthlyData_some _ _ d hd, if_neg hs, if_neg hr,
          expenseAt_ensure]
        simp [aggInit, expenseAt, findDoc]
    constructor
    · rw [hagg, agg_foldl_incomeAt, hBI, aggOf, agg_foldl_incomeAt]
      simp [aggInit, incomeAt, findDoc]
    · rw [hagg, agg_foldl_expenseAt, hBE, aggOf, agg_foldl_expenseAt]
      simp [aggInit, expenseAt, findDoc]

/-- A record with the unknown direction tag "other". -/
def c10Rec : TransactionRecord :=
  { fromAccountId := "A"
    toAccountId := "B"
    amount := 3
    date := some { ms := 3000, year := 2025, month := ⟨0, by decide⟩ }
    fileName := none
    fileUrl := none
    associatedUser := "u"
    type := "other"
    createdAt := some { ms := 3000, year := 2025, month := ⟨0, by decide⟩ }
    name := "Alice"
    category := "z" }

/-- `c9Db` extended by the "other"-typed record. -/
def c10Db : DB :=
  { bankAccounts := [], transactions := ("t3", c10Rec) :: c9Db.transactions }

/-- Witness for C10 on `c9Db` extended by `c10Rec`. -/
theorem analytics_unknown_type_witness :
    (analytics "u" c10Db).kpis.totalTransactions =
        (analytics "u" c9Db).kpis.totalTransactions + 1 ∧
    (analytics "u" c10Db).kpis.totalAmountMoved =
        (analytics "u" c9Db).kpis.totalAmountMoved + c10Rec.amount ∧
    (analytics "u" c10Db).kpis.receivedAmount =
        (analytics "u" c9Db).kpis.receivedAmount ∧
    (analytics "u" c10Db).kpis.sendedAmount =
        (analytics "u" c9Db).kpis.sendedAmount ∧
    (analytics "u" c10Db).charts.revenueVsExpenses =
        (analytics "u" c9Db).charts.revenueVsExpenses ∧
    (analytics "u" c10Db).charts.distributionByType =
        (analytics "u" c9Db).charts.distributionByType ∧
    (analytics "u" c10Db).charts.distributionDetailsSended =
        (analytics "u" c9Db).charts.distributionDetailsSended ∧
    (analytics "u" c10Db).charts.distributionDetailsReceived =
        (analytics "u" c9Db).charts.distributionDetailsReceived ∧
    (∀ k, incomeAt (aggOf "u" c10Db).monthlyData k =
          incomeAt (aggOf "u" c9Db).monthlyData k ∧
        expenseAt (aggOf "u" c10Db).monthlyData k =
          expenseAt (aggOf "u" c9Db).monthlyData k) :=
  analytics_unknown_type "u" "t3" c10Rec c9Db c10Db (by decide) (by decide)
    (by decide) (by decide)

end PrimeBank
